import Mathlib

/-!
Verification of the samba_exporter table parser (`smbstatusreader` package)
and the `Collect` loop of the prometheus exporter (`smbexporter` package).

Strings are modelled as lists of characters (`Str`); the Go standard-library
functions used by the source (`strings.Split`, `strings.TrimSpace`,
`strings.HasPrefix`, `strings.Contains`, `strconv.Atoi`, `time.Parse`) are
embedded first, then the source functions of the repository on top of them.
-/

set_option maxRecDepth 40000

deriving instance DecidableEq for Except

namespace SmbVerify

/-- Strings are modelled as lists of characters. -/
abbrev Str := List Char

/-- Conversion from a Lean string literal to the model. -/
def str (s : String) : Str := s.data

/-- The white-space class of Go `unicode.IsSpace`, used by `strings.TrimSpace`. -/
def isGoSpace (c : Char) : Bool :=
  c = ' ' || c = '\t' || c = '\n' || c = (Char.ofNat 11) || c = (Char.ofNat 12) || c = '\r' ||
  c = (Char.ofNat 0x85) || c = (Char.ofNat 0xA0) || c = (Char.ofNat 0x1680) ||
  (0x2000 ≤ c.toNat && c.toNat ≤ 0x200A) ||
  c = (Char.ofNat 0x2028) || c = (Char.ofNat 0x2029) || c = (Char.ofNat 0x202F) ||
  c = (Char.ofNat 0x205F) || c = (Char.ofNat 0x3000)

/-- Drop leading white space. -/
def trimLeftSpace : Str → Str
  | [] => []
  | c :: rest => if isGoSpace c then trimLeftSpace rest else c :: rest

/-- Go `strings.TrimSpace`: drop leading and trailing white space. -/
def trimSpace (s : Str) : Str :=
  List.reverse (trimLeftSpace (List.reverse (trimLeftSpace s)))

/-- Index of the first occurrence of `sep` in `s` (Go `strings.Index`). -/
def indexOfSub (sep : Str) : Str → Option Nat
  | [] => if sep = [] then some 0 else none
  | c :: rest =>
    if sep.isPrefixOf (c :: rest) then some 0
    else (indexOfSub sep rest).map (· + 1)

/-- Fueled worker for `splitGo`; the fuel always suffices at the call site. -/
def splitGoF (sep : Str) : Nat → Str → List Str
  | 0, s => [s]
  | fuel + 1, s =>
    match indexOfSub sep s with
    | none => [s]
    | some i => s.take i :: splitGoF sep fuel (s.drop (i + sep.length))

/-- Go `strings.Split`.  For a nonempty separator the string is cut at every
non-overlapping occurrence of `sep`; for the (unused here) empty separator Go
splits after each character. -/
def splitGo (sep s : Str) : List Str :=
  if sep = [] then s.map (fun c => [c]) else splitGoF sep (s.length + 1) s

/-- Go `fmt.Sprintf("%s %s", acc, part)` folded over a list, starting from the
empty string, as the source builds the lock name and the timestamp string. -/
def joinLead (parts : List Str) : Str :=
  parts.foldl (fun acc p => acc ++ ' ' :: p) []

/-- Go `fmt.Sprintf` with single-space separators between a fixed tuple of fields. -/
def joinSp : List Str → Str
  | [] => []
  | [x] => x
  | x :: y :: rest => x ++ ' ' :: joinSp (y :: rest)

/-- The sub-list `l[a:b]` for indices known to be in range. -/
def sliceList (l : List Str) (a b : Nat) : List Str := (l.drop a).take (b - a)

/-- Go slice indexing `l[i]`; out of range is a runtime panic, modelled as
`Except.error`. -/
def goIndex (l : List Str) (i : Nat) : Except Str Str :=
  match l.get? i with
  | some v => .ok v
  | none => .error (str "runtime error: index out of range")

/-- Go slicing `l[low:high]` with `int` bounds; a violated bound is a runtime
panic, modelled as `Except.error`. -/
def goSlice (l : List Str) (low high : Int) : Except Str (List Str) :=
  if 0 ≤ low ∧ low ≤ high ∧ high ≤ (l.length : Int) then
    .ok ((l.drop low.toNat).take (high - low).toNat)
  else .error (str "runtime error: slice bounds out of range")

/-- Numeric value of a digit string. -/
def digitsVal (s : Str) : Nat := s.foldl (fun a c => a * 10 + (c.toNat - 48)) 0

/-- Go `strconv.Atoi`: optional sign, then only ASCII digits, at least one;
values outside the `int64` range give `ErrRange`, hence `none`. -/
def atoiGo (s : Str) : Option Int :=
  let signAndDigits : Int × Str :=
    match s with
    | c :: rest => if c = '+' then (1, rest) else if c = '-' then (-1, rest) else (1, s)
    | [] => (1, s)
  let sign := signAndDigits.1
  let digits := signAndDigits.2
  if digits = [] ∨ digits.any (fun c => ¬ c.isDigit) then none
  else
    let v : Int := sign * (digitsVal digits : Int)
    if v < -(2 ^ 63) ∨ 2 ^ 63 - 1 < v then none else some v

/-! ## The Go `time` package, restricted to the layouts the source uses

`time.Parse`/`time.ParseInLocation` are embedded for the six layout strings
appearing in the source.  A parsed time is kept as its wall-clock fields plus
the zone tag that the parse attached ("Local" for `ParseInLocation` with the
process location, "UTC" for `Parse` without zone information, otherwise the
matched zone abbreviation); zone offsets are not modelled. -/

/-- Result of a Go time parse: wall-clock fields plus a zone tag. -/
structure GoTime where
  year : Int
  month : Nat
  day : Nat
  hour : Nat
  minute : Nat
  second : Nat
  nsec : Nat
  loc : Str
deriving DecidableEq, Repr

/-- The zero `time.Time`: January 1, year 1, 00:00:00 UTC. -/
def timeZero : GoTime := ⟨1, 1, 1, 0, 0, 0, 0, str "UTC"⟩

/-- Stands for `time.Now()`: returned by `tryGetTimeStampFromStrArr` only
together with a `false` success flag and never read by any caller. -/
def timeNow : GoTime := ⟨0, 1, 1, 0, 0, 0, 0, str "Local"⟩

/-- One chunk of a Go layout string, as produced by `nextStdChunk` on the six
layouts of the source. -/
inductive LayoutChunk where
  | lit (c : Char)
  | wday3
  | mon3
  | dayUnderscore
  | dayOne
  | dayZero
  | hour24
  | hour12Zero
  | minuteZero
  | secondZero
  | year4
  | pmUpper
  | tzAbbr
deriving DecidableEq

/-- Accumulator of a running layout parse, with the Go default field values. -/
structure ParseAcc where
  year : Int := 0
  month : Nat := 1
  day : Nat := 1
  hour : Nat := 0
  minute : Nat := 0
  second : Nat := 0
  nsec : Nat := 0
  pm : Bool := false
  am : Bool := false
  zoneName : Str := []

/-- Go `getnum`: one or two ASCII digits, exactly two when `fixed`. -/
def getnum (fixed : Bool) : Str → Option (Nat × Str)
  | [] => none
  | c1 :: rest =>
    if c1.isDigit then
      match rest with
      | c2 :: rest2 =>
        if c2.isDigit then some ((c1.toNat - 48) * 10 + (c2.toNat - 48), rest2)
        else if fixed then none else some (c1.toNat - 48, rest)
      | [] => if fixed then none else some (c1.toNat - 48, [])
    else none

/-- ASCII lower-casing, matching the case-insensitive `match` helper of the Go
time package. -/
def lowerAscii (c : Char) : Char :=
  if 'A' ≤ c ∧ c ≤ 'Z' then Char.ofNat (c.toNat + 32) else c

/-- Case-insensitive comparison of equal-length strings (Go time `match`). -/
def matchCI (a b : Str) : Bool := a.map lowerAscii = b.map lowerAscii

/-- Go time `lookup`: the first table entry that is a case-insensitive prefix
of the value, with its index and the remaining value. -/
def lookupNameAux : List Str → Nat → Str → Option (Nat × Str)
  | [], _, _ => none
  | v :: rest, i, val =>
    if v.length ≤ val.length ∧ matchCI v (val.take v.length) then
      some (i, val.drop v.length)
    else lookupNameAux rest (i + 1) val

def shortDayNames : List Str :=
  [str "Sun", str "Mon", str "Tue", str "Wed", str "Thu", str "Fri", str "Sat"]

def shortMonthNames : List Str :=
  [str "Jan", str "Feb", str "Mar", str "Apr", str "May", str "Jun",
   str "Jul", str "Aug", str "Sep", str "Oct", str "Nov", str "Dec"]

/-- Go `parseSignedOffset`: length consumed by a `+hh`/`-hh` offset, 0 if none. -/
def parseSignedOffset (s : Str) : Nat :=
  match s with
  | c :: rest =>
    if c = '+' ∨ c = '-' then
      let ds := rest.takeWhile (fun d => d.isDigit)
      if ds = [] then 0 else if 23 < digitsVal ds then 0 else 1 + ds.length
    else 0
  | [] => 0

/-- Go `parseGMT`: "GMT" with an optional signed hour offset. -/
def parseGMT (s : Str) : Nat :=
  let rest := s.drop 3
  if rest = [] then 3 else 3 + parseSignedOffset rest

/-- Count of leading upper-case ASCII letters, capped at 6 (Go `parseTimeZone`). -/
def countLeadUpper (s : Str) : Nat :=
  ((s.take 6).takeWhile (fun c => 'A' ≤ c ∧ c ≤ 'Z')).length

/-- Go `parseTimeZone`: how many characters of `value` form a zone abbreviation. -/
def parseTimeZone (value : Str) : Option Nat :=
  if value.length < 3 then none
  else if (str "ChST").isPrefixOf value ∨ (str "MeST").isPrefixOf value then some 4
  else if (str "GMT").isPrefixOf value then some (parseGMT value)
  else
    match value with
    | [] => none
    | c :: _ =>
      if c = '+' ∨ c = '-' then
        let l := parseSignedOffset value
        if 0 < l then some l else none
      else
        match countLeadUpper value with
        | 3 => some 3
        | 4 => if value.getD 3 ' ' = 'T' ∨ value.take 4 = str "WITA" then some 4 else none
        | 5 => if value.getD 4 ' ' = 'T' then some 5 else none
        | _ => none

/-- Fractional-second handling of Go `Parse` after a seconds chunk whose layout
carries no fraction: an optional `.ddd`/`,ddd` run is consumed, the first nine
digits giving nanoseconds. -/
def consumeFraction (s : Str) : Nat × Str :=
  match s with
  | p :: d :: rest =>
    if (p = '.' ∨ p = ',') ∧ d.isDigit then
      let ds := d :: rest.takeWhile (fun c => c.isDigit)
      let rest2 := rest.drop (ds.length - 1)
      let first9 := ds.take 9
      (digitsVal first9 * 10 ^ (9 - first9.length), rest2)
    else (0, s)
  | _ => (0, s)

/-- Exactly four digits (Go `stdLongYear` on the layouts used here). -/
def getYear4 : Str → Option (Int × Str)
  | a :: b :: c :: d :: rest =>
    if a.isDigit ∧ b.isDigit ∧ c.isDigit ∧ d.isDigit then
      some ((digitsVal [a, b, c, d] : Int), rest)
    else none
  | _ => none

/-- Run a chunked layout over a value, Go `Parse`'s main loop; the whole value
must be consumed. -/
def runLayout : List LayoutChunk → Str → ParseAcc → Option ParseAcc
  | [], [], acc => some acc
  | [], _ :: _, _ => none
  | chunk :: rest, s, acc =>
    match chunk with
    | .lit c =>
      match s with
      | c2 :: s2 => if c2 = c then runLayout rest s2 acc else none
      | [] => none
    | .wday3 =>
      match lookupNameAux shortDayNames 0 s with
      | some (_, s2) => runLayout rest s2 acc
      | none => none
    | .mon3 =>
      match lookupNameAux shortMonthNames 0 s with
      | some (i, s2) => runLayout rest s2 { acc with month := i + 1 }
      | none => none
    | .dayUnderscore =>
      let s1 := match s with
        | ' ' :: r => r
        | _ => s
      match getnum false s1 with
      | some (d, s2) => runLayout rest s2 { acc with day := d }
      | none => none
    | .dayOne =>
      match getnum false s with
      | some (d, s2) => runLayout rest s2 { acc with day := d }
      | none => none
    | .dayZero =>
      match getnum true s with
      | some (d, s2) => runLayout rest s2 { acc with day := d }
      | none => none
    | .hour24 =>
      match getnum false s with
      | some (h, s2) => if h < 24 then runLayout rest s2 { acc with hour := h } else none
      | none => none
    | .hour12Zero =>
      match getnum true s with
      | some (h, s2) => if h ≤ 12 then runLayout rest s2 { acc with hour := h } else none
      | none => none
    | .minuteZero =>
      match getnum true s with
      | some (m, s2) => if m < 60 then runLayout rest s2 { acc with minute := m } else none
      | none => none
    | .secondZero =>
      match getnum true s with
      | some (sec, s2) =>
        if sec < 60 then
          let fr := consumeFraction s2
          runLayout rest fr.2 { acc with second := sec, nsec := fr.1 }
        else none
      | none => none
    | .year4 =>
      match getYear4 s with
      | some (y, s2) => runLayout rest s2 { acc with year := y }
      | none => none
    | .pmUpper =>
      match s with
      | 'P' :: 'M' :: s2 => runLayout rest s2 { acc with pm := true }
      | 'A' :: 'M' :: s2 => runLayout rest s2 { acc with am := true }
      | _ => none
    | .tzAbbr =>
      if (str "UTC").isPrefixOf s then
        runLayout rest (s.drop 3) { acc with zoneName := str "UTC" }
      else
        match parseTimeZone s with
        | some n => runLayout rest (s.drop n) { acc with zoneName := s.take n }
        | none => none

/-- Leap year rule of the proleptic Gregorian calendar, as Go `isLeap`. -/
def isLeapYear (y : Int) : Bool := y % 4 = 0 ∧ (y % 100 ≠ 0 ∨ y % 400 = 0)

/-- Days in a month (Go `daysIn`). -/
def daysInMonth (m : Nat) (y : Int) : Nat :=
  if m = 2 then (if isLeapYear y then 29 else 28)
  else if m = 4 ∨ m = 6 ∨ m = 9 ∨ m = 11 then 30
  else 31

/-- Final steps of Go `Parse`: AM/PM adjustment and the day-of-month range
check; `defaultLoc` is used when the layout carried no zone information. -/
def finishParse (defaultLoc : Str) (acc : ParseAcc) : Option GoTime :=
  let hour :=
    if acc.am ∧ acc.hour = 12 then 0
    else if acc.pm ∧ acc.hour < 12 then acc.hour + 12
    else acc.hour
  if acc.day < 1 ∨ daysInMonth acc.month acc.year < acc.day then none
  else
    some ⟨acc.year, acc.month, acc.day, hour, acc.minute, acc.second, acc.nsec,
      if acc.zoneName = [] then defaultLoc else acc.zoneName⟩

/-- Go `time.Parse(layout, s)`: zone-free values are interpreted in UTC. -/
def timeParse (layout : List LayoutChunk) (s : Str) : Option GoTime :=
  (runLayout layout s {}).bind (finishParse (str "UTC"))

/-- Go `time.ParseInLocation(layout, s, time.Now().Location())`: zone-free values
are interpreted in the process-local location. -/
def timeParseInLocation (layout : List LayoutChunk) (s : Str) : Option GoTime :=
  (runLayout layout s {}).bind (finishParse (str "Local"))

/-- The layout `time.ANSIC` = "Mon Jan _2 15:04:05 2006". -/
def layoutANSIC : List LayoutChunk :=
  [.wday3, .lit ' ', .mon3, .lit ' ', .dayUnderscore, .lit ' ', .hour24, .lit ':',
   .minuteZero, .lit ':', .secondZero, .lit ' ', .year4]

/-- The layout "Mon Jan 02 03:04:05 PM 2006 MST". -/
def layout12ZeroDay : List LayoutChunk :=
  [.wday3, .lit ' ', .mon3, .lit ' ', .dayZero, .lit ' ', .hour12Zero, .lit ':',
   .minuteZero, .lit ':', .secondZero, .lit ' ', .pmUpper, .lit ' ', .year4, .lit ' ', .tzAbbr]

/-- The layout "Mon Jan 2 03:04:05 PM 2006 MST". -/
def layout12PlainDay : List LayoutChunk :=
  [.wday3, .lit ' ', .mon3, .lit ' ', .dayOne, .lit ' ', .hour12Zero, .lit ':',
   .minuteZero, .lit ':', .secondZero, .lit ' ', .pmUpper, .lit ' ', .year4, .lit ' ', .tzAbbr]

/-- The layout "Mon Jan _2 15:04:05 2006 MST". -/
def layout24TZ : List LayoutChunk :=
  [.wday3, .lit ' ', .mon3, .lit ' ', .dayUnderscore, .lit ' ', .hour24, .lit ':',
   .minuteZero, .lit ':', .secondZero, .lit ' ', .year4, .lit ' ', .tzAbbr]

/-- The layout "Mo Jan _2 15:04:05 2006 MST" — "Mo" is no Go std chunk, so its two
characters are literals. -/
def layout24TZMo : List LayoutChunk :=
  [.lit 'M', .lit 'o', .lit ' ', .mon3, .lit ' ', .dayUnderscore, .lit ' ', .hour24, .lit ':',
   .minuteZero, .lit ':', .secondZero, .lit ' ', .year4, .lit ' ', .tzAbbr]

/-! ## The `smbstatusreader` package -/

/-- Entry of the `smbstatus -L -n` output table. -/
structure LockData where
  PID : Int
  ClusterNodeId : Int
  UserID : Int
  DenyMode : Str
  Access : Str
  AccessMode : Str
  Oplock : Str
  SharePath : Str
  Name : Str
  Time : GoTime
deriving DecidableEq, Repr

/-- Entry of the `smbstatus -S -n` output table. -/
structure ShareData where
  Service : Str
  PID : Int
  ClusterNodeId : Int
  Machine : Str
  ConnectedAt : GoTime
  Encryption : Str
  Signing : Str
deriving DecidableEq, Repr

/-- Entry of the `smbstatus -p -n` output table. -/
structure ProcessData where
  PID : Int
  ClusterNodeId : Int
  UserID : Int
  GroupID : Int
  Machine : Str
  ProtocolVersion : Str
  Encryption : Str
  Signing : Str
  SambaVersion : Str
deriving DecidableEq, Repr

/-- The per-line token extraction of `getFieldMatrix`: split on the separator,
trim each field, keep the nonempty ones. -/
def splitNonEmptyTrimmed (separator line : Str) : List Str :=
  ((splitGo separator line).map trimSpace).filter (fun f => f ≠ [])

/-- Source `getFieldMatrix`. -/
def getFieldMatrix (dataLines : List Str) (separator : Str) : List (List Str) :=
  dataLines.map (splitNonEmptyTrimmed separator)

/-- Source `getFieldMatrixFixLength`. -/
def getFieldMatrixFixLength (dataLines : List Str) (separator : Str) (lineFields : Nat) :
    List (List Str) :=
  (getFieldMatrix dataLines separator).filter (fun l => l.length = lineFields)

/-- The 41-dash literal of `findSeperatorLineIndex`. -/
def sepDashes : Str := List.replicate 41 '-'

/-- Source `findSeperatorLineIndex`: index of the first line starting with the
41-dash literal, `-1` when there is none. -/
def findSeperatorLineIndex (lines : List Str) : Int :=
  match lines.findIdx? (fun line => sepDashes.isPrefixOf line) with
  | some i => (i : Int)
  | none => -1

/-- Go `strings.Split(data, "\n")`. -/
def dataLines (data : Str) : List Str := splitGo (str "\n") data

/-- The identifier-token handling shared verbatim by all data-row loops of the
source: a token with a colon splits into `(ClusterNodeId, PID)`, otherwise
`ClusterNodeId` is `-1` and the token itself is the PID; any failed `Atoi`
skips the row. -/
def parseIdToken (tok : Str) : Option (Int × Int) :=
  if tok.contains ':' then
    let pidFields := splitGo (str ":") tok
    match atoiGo (pidFields.getD 0 []), atoiGo (pidFields.getD 1 []) with
    | some cni, some pid => some (cni, pid)
    | _, _ => none
  else
    match atoiGo tok with
    | some pid => some (-1, pid)
    | none => none

/-- Source `tryGetTimeStampFromStrArr`: rebuild the candidate string from the tokens
and try the ordered pattern list; on failure return `time.Now()` with `false`. -/
def tryGetTimeStampFromStrArr (fields : List Str) : Bool × GoTime :=
  let timeStr := trimSpace (joinLead fields)
  match timeParseInLocation layoutANSIC timeStr with
  | some t => (true, t)
  | none =>
  match timeParse layoutANSIC timeStr with
  | some t => (true, t)
  | none =>
  match timeParse layout12ZeroDay timeStr with
  | some t => (true, t)
  | none =>
  match timeParse layout12PlainDay timeStr with
  | some t => (true, t)
  | none =>
  match timeParse layout24TZ timeStr with
  | some t => (true, t)
  | none =>
  match timeParse layout24TZMo timeStr with
  | some t => (true, t)
  | none => (false, timeNow)

/-- Loop body of `GetLockData` on one data row.  `Except.error` is a runtime
panic (Go slice indexing without a length guard), `.ok none` a skipped row. -/
def lockRow (fields : List Str) : Except Str (Option LockData) := do
  let fieldLength := fields.length
  let f0 ← goIndex fields 0
  match parseIdToken f0 with
  | none => return none
  | some (cni, pid) =>
  let f1 ← goIndex fields 1
  match atoiGo f1 with
  | none => return none
  | some uid =>
  let f2 ← goIndex fields 2
  let f3 ← goIndex fields 3
  let f4 ← goIndex fields 4
  let f5 ← goIndex fields 5
  let f6 ← goIndex fields 6
  let w5 ← goSlice fields ((fieldLength : Int) - 5) (fieldLength : Int)
  let t5 := tryGetTimeStampFromStrArr w5
  if t5.1 then
    if (fieldLength : Int) - 5 ≤ 7 then return none
    else do
      let parts ← goSlice fields 7 ((fieldLength : Int) - 5)
      return some ⟨pid, cni, uid, f2, f3, f4, f5, f6, trimSpace (joinLead parts), t5.2⟩
  else do
    let w6 ← goSlice fields ((fieldLength : Int) - 6) (fieldLength : Int)
    let t6 := tryGetTimeStampFromStrArr w6
    if t6.1 then
      if (fieldLength : Int) - 6 ≤ 7 then return none
      else do
        let parts ← goSlice fields 7 ((fieldLength : Int) - 6)
        return some ⟨pid, cni, uid, f2, f3, f4, f5, f6, trimSpace (joinLead parts), t6.2⟩
    else return none

/-- The data-row loop of `GetLockData`: rows in order, skips dropped, the first
panic aborting the call. -/
def lockRows : List (List Str) → Except Str (List LockData)
  | [] => .ok []
  | fields :: rest => do
    let r ← lockRow fields
    let tail ← lockRows rest
    match r with
    | none => pure tail
    | some e => pure (e :: tail)

/-- The header validation of `GetLockData`: one 9-field double-space row with
"Pid" first and "Oplock" sixth. -/
def lockHeaderOk (lines : List Str) (sidx : Nat) : Bool :=
  let m := getFieldMatrixFixLength (sliceList lines (sidx - 1) sidx) (str "  ") 9
  decide (m.length = 1 ∧ (m.headD []).getD 0 [] = str "Pid" ∧
    (m.headD []).getD 5 [] = str "Oplock")

/-- Source `GetLockData`.  The result is `Except` because the data-row loop
indexes `fields[0]`..`fields[6]` without a length guard and can panic. -/
def GetLockData (data : Str) : Except Str (List LockData) :=
  if trimSpace data = str "No locked files" then .ok []
  else
    let lines := dataLines data
    let sep := findSeperatorLineIndex lines
    if sep < 1 then .ok []
    else
      let sidx := sep.toNat
      if lockHeaderOk lines sidx = false then .ok []
      else lockRows (getFieldMatrix (lines.drop (sidx + 1)) (str " "))

/-- Loop body of `GetShareData`, normal mode, 12-column rows. -/
def shareRowC12 (fields : List Str) : Option ShareData :=
  match parseIdToken (fields.getD 1 []) with
  | none => none
  | some (cni, pid) =>
    let timeStr := joinSp [fields.getD 3 [], fields.getD 4 [], fields.getD 5 [],
      fields.getD 6 [], fields.getD 7 [], fields.getD 8 [], fields.getD 9 []]
    match timeParse layout12ZeroDay timeStr with
    | some t => some ⟨fields.getD 0 [], pid, cni, fields.getD 2 [], t,
        fields.getD 10 [], fields.getD 11 []⟩
    | none =>
      match timeParse layout12PlainDay timeStr with
      | some t => some ⟨fields.getD 0 [], pid, cni, fields.getD 2 [], t,
          fields.getD 10 [], fields.getD 11 []⟩
      | none => none

/-- Loop body of `GetShareData`, normal mode, 11-column rows. -/
def shareRowC11 (fields : List Str) : Option ShareData :=
  match parseIdToken (fields.getD 1 []) with
  | none => none
  | some (cni, pid) =>
    let timeStr := joinSp [fields.getD 3 [], fields.getD 4 [], fields.getD 5 [],
      fields.getD 6 [], fields.getD 7 [], fields.getD 8 []]
    match timeParse layout24TZ timeStr with
    | some t => some ⟨fields.getD 0 [], pid, cni, fields.getD 2 [], t,
        fields.getD 9 [], fields.getD 10 []⟩
    | none =>
      match timeParse layout24TZMo timeStr with
      | some t => some ⟨fields.getD 0 [], pid, cni, fields.getD 2 [], t,
          fields.getD 9 [], fields.getD 10 []⟩
      | none => none

/-- Loop body of `GetShareData`, cluster mode, 8-column rows.  `Service` and
`ConnectedAt` are never assigned and stay at their zero values. -/
def shareRowCluster (fields : List Str) : Option ShareData :=
  match parseIdToken (fields.getD 0 []) with
  | none => none
  | some (cni, pid) =>
    some ⟨[], pid, cni, fields.getD 3 [] ++ ' ' :: fields.getD 4 [], timeZero,
      fields.getD 6 [], fields.getD 7 []⟩

/-- The header matrix of `GetShareData`: 6 double-space fields, falling back
to 7 (cluster setup). -/
def shareHeaderMatrix (lines : List Str) (sidx : Nat) : List (List Str) :=
  let hm6 := getFieldMatrixFixLength (sliceList lines (sidx - 1) sidx) (str "  ") 6
  if hm6.length = 1 then hm6
  else getFieldMatrixFixLength (sliceList lines (sidx - 1) sidx) (str "  ") 7

/-- The `runningMode` computation of `GetShareData` on the header fields. -/
def shareRunningMode (fields : List Str) : Str :=
  let m0 := str "none"
  let m1 := if fields.getD 0 [] = str "Service" ∧ fields.getD 3 [] = str "Connected at"
    then str "normal" else m0
  if fields.getD 0 [] = str "PID" ∧ fields.getD 4 [] = str "Protocol Version"
    then str "cluster" else m1

/-- The running mode `GetShareData` derives from the input: "none" when the
separator or the header shape is not recognized. -/
def shareModeOfData (data : Str) : Str :=
  let lines := dataLines data
  let sep := findSeperatorLineIndex lines
  if sep < 1 then str "none"
  else
    let hm := shareHeaderMatrix lines sep.toNat
    if hm.length = 1 then shareRunningMode (hm.headD []) else str "none"

/-- Source `GetShareData`. -/
def GetShareData (data : Str) : List ShareData :=
  let lines := dataLines data
  let sidx := (findSeperatorLineIndex lines).toNat
  let mode := shareModeOfData data
  if mode = str "normal" then
    let fm12 := getFieldMatrixFixLength (lines.drop (sidx + 1)) (str " ") 12
    if fm12 ≠ [] then fm12.filterMap shareRowC12
    else (getFieldMatrixFixLength (lines.drop (sidx + 1)) (str " ") 11).filterMap shareRowC11
  else if mode = str "cluster" then
    (getFieldMatrixFixLength (lines.drop (sidx + 1)) (str " ") 8).filterMap shareRowCluster
  else []

/-- Loop body of `GetProcessData` on one 8-column data row. -/
def processRow (sambaVersion : Str) (fields : List Str) : Option ProcessData :=
  match parseIdToken (fields.getD 0 []) with
  | none => none
  | some (cni, pid) =>
    let uid? : Option Int :=
      if fields.getD 1 [] = str "nobody" then some (-1) else atoiGo (fields.getD 1 [])
    match uid? with
    | none => none
    | some uid =>
      let gid? : Option Int :=
        if fields.getD 2 [] = str "nogroup" then some (-1) else atoiGo (fields.getD 2 [])
      match gid? with
      | none => none
      | some gid =>
        some ⟨pid, cni, uid, gid, fields.getD 3 [] ++ ' ' :: fields.getD 4 [],
          fields.getD 5 [], fields.getD 6 [], fields.getD 7 [], sambaVersion⟩

/-- Go `strings.Replace(s, old, new, 1)`: replace the first occurrence. -/
def replaceFirst (s old new : Str) : Str :=
  match indexOfSub old s with
  | none => s
  | some i => s.take i ++ new ++ s.drop (i + old.length)

/-- The banner line two above the separator, `lines[sep-2:sep-1][0]`. -/
def sambaVersionLineOf (lines : List Str) (sidx : Nat) : Str :=
  (sliceList lines (sidx - 2) (sidx - 1)).getD 0 []

/-- The header validation of `GetProcessData`: one 7-field double-space row
with "Username" second and "Protocol Version" fifth. -/
def processHeaderOk (lines : List Str) (sidx : Nat) : Bool :=
  let m := getFieldMatrixFixLength (sliceList lines (sidx - 1) sidx) (str "  ") 7
  decide (m.length = 1 ∧ (m.headD []).getD 1 [] = str "Username" ∧
    (m.headD []).getD 4 [] = str "Protocol Version")

/-- Source `GetProcessData`. -/
def GetProcessData (data : Str) : List ProcessData :=
  let lines := dataLines data
  let sep := findSeperatorLineIndex lines
  if sep < 2 then []
  else
    let sidx := sep.toNat
    let svLine := sambaVersionLineOf lines sidx
    if (str "Samba version").isPrefixOf svLine = false then []
    else
      let sambaVersion := trimSpace (replaceFirst svLine (str "Samba version") [])
      if processHeaderOk lines sidx = false then []
      else (getFieldMatrixFixLength (lines.drop (sidx + 1)) (str " ") 8).filterMap
        (processRow sambaVersion)

/-! ## The `Collect` emission loop of the `smbexporter` package -/

/-- The fields of a `prometheus.Desc` relevant here; the zero value models the
Go zero `prometheus.Desc`. -/
structure PrometheusDesc where
  fqName : Str
  help : Str
deriving DecidableEq, Repr

/-- The Go zero value of `prometheus.Desc`. -/
def zeroDesc : PrometheusDesc := ⟨[], []⟩

/-- One aggregated statistic handed to `Collect` (name and numeric value; the
Go value type is numeric and only copied, modelled as `Int`). -/
structure SmbStatisticsNumeric where
  Name : Str
  Value : Int
deriving DecidableEq, Repr

/-- A metric sample sent to the channel by `prometheus.MustNewConstMetric`. -/
structure ConstMetric where
  desc : PrometheusDesc
  value : Int
deriving DecidableEq, Repr

/-- Go map read `smbExporter.Descriptions[stat.Name]` with its comma-ok form:
the zero value and `false` when the key is absent. -/
def descrGet (m : List (Str × PrometheusDesc)) (k : Str) : PrometheusDesc × Bool :=
  match m.find? (fun p => p.1 = k) with
  | some p => (p.2, true)
  | none => (zeroDesc, false)

/-- The error message logged for a stat without a registered descriptor. -/
def noDescMsg (name : Str) : Str := str "No description found for " ++ name

/-- The emission loop of `Collect` (exporter.go lines 89-100) over the stats
produced from a snapshot: returns the emitted samples and the logged error
messages.  Everything before the loop (pipe transport, aggregation) lives in
packages outside this repository's sources. -/
def collectLoop (descriptions : List (Str × PrometheusDesc))
    (stats : List SmbStatisticsNumeric) : List ConstMetric × List Str :=
  stats.foldl (fun acc stat =>
    let dg := descrGet descriptions stat.Name
    let logs := if dg.2 = false then acc.2 ++ [noDescMsg stat.Name] else acc.2
    (acc.1 ++ [⟨dg.1, stat.Value⟩], logs)) ([], [])

/-! ## Concrete inputs for the closed theorems -/

/-- A well-formed locks-table header: 9 double-space fields, "Pid" first,
"Oplock" sixth. -/
def lockHeaderLine : Str :=
  str "Pid  Uid  DenyMode  Access  R/W  Oplock  SharePath  Name  Time"

/-- A separator line of 45 dashes. -/
def sepLine : Str := List.replicate 45 '-'

/-- A valid locks table whose separator is followed by a single empty line
(a trailing newline), the shape every real `smbstatus -L` output ends with. -/
def lockTrailingNewlineInput : Str := lockHeaderLine ++ str "\n" ++ sepLine ++ str "\n"

/-- The known-good locks table of the spec: header, separator, one data row. -/
def lockGoodInput : Str :=
  lockHeaderLine ++ str "\n" ++ sepLine ++
  str "\n1234 0 DENY_NONE RDONLY NONE - /srv/share file.txt Mon Jan 2 15:04:05 2006"

/-- The record `GetLockData` returns for `lockGoodInput`. -/
def lockGoodRecord : LockData :=
  ⟨1234, -1, 0, str "DENY_NONE", str "RDONLY", str "NONE", str "-", str "/srv/share",
    str "file.txt", ⟨2006, 1, 2, 15, 4, 5, 0, str "Local"⟩⟩

/-- The same locks table with the identifier token `-2:1234`: the part before
the colon parses to the negative cluster node id `-2`. -/
def lockNegClusterInput : Str :=
  lockHeaderLine ++ str "\n" ++ sepLine ++
  str "\n-2:1234 0 DENY_NONE RDONLY NONE - /srv/share file.txt Mon Jan 2 15:04:05 2006"

/-- A cluster-mode shares table: 7-field header with "PID" first and
"Protocol Version" fifth, one 8-token data row. -/
def shareClusterInput : Str :=
  str "PID  Username  Group  Machine  Protocol Version  Encryption  Signing\n" ++
  sepLine ++ str "\n1234 user grp 10.0.0.1 (ipv4:10.0.0.1:445) SMB3_11 - -"

/-! ## Claim theorems, part 1: the closed evaluations -/

/-- Claim C1 (code bug): `GetLockData` does not return normally on every
input.  On a well-shaped locks table whose separator is followed by a trailing
newline — so the matrix of data rows contains one empty row — the loop body
indexes `fields[0]` on an empty slice and panics, where the claim (and the
function's own doc comment) promise an empty result and a diagnostic. -/
theorem claim1_lock_parser_panics_on_empty_data_row :
    GetLockData lockTrailingNewlineInput = .error (str "runtime error: index out of range") := by
  decide

/-- Claim C5: on the known-good locks table with data row
`1234 0 DENY_NONE RDONLY NONE - /srv/share file.txt Mon Jan 2 15:04:05 2006`,
`GetLockData` returns exactly one record with PID 1234, ClusterNodeId -1,
Name "file.txt", and timestamp equal to the instant parsed from
"Mon Jan 2 15:04:05 2006". -/
theorem claim5_known_good_lock_table :
    GetLockData lockGoodInput = .ok [lockGoodRecord] ∧
    lockGoodRecord.PID = 1234 ∧
    lockGoodRecord.ClusterNodeId = -1 ∧
    lockGoodRecord.Name = str "file.txt" ∧
    timeParseInLocation layoutANSIC (str "Mon Jan 2 15:04:05 2006") = some lockGoodRecord.Time := by
  refine ⟨by decide, by decide, by decide, by decide, by decide⟩

/-- Counterexample to claim C2: with an empty descriptor registry and one
aggregated statistic, the `Collect` loop logs the missing descriptor but still
emits one sample for it (built from the zero-value descriptor), where the
claim says the name is skipped with no sample emitted. -/
theorem claim2_counterexample_sample_emitted_without_descriptor :
    (collectLoop [] [⟨str "samba_total_locks", 3⟩]).1 = [⟨zeroDesc, 3⟩] ∧
    (descrGet [] (str "samba_total_locks")).2 = false ∧
    (collectLoop [] [⟨str "samba_total_locks", 3⟩]).2 = [noDescMsg (str "samba_total_locks")] := by
  refine ⟨by decide, by decide, by decide⟩

/-- Counterexample to claim C3: the cluster-mode branch of `GetShareData`
returns a record whose `Service` and `ConnectedAt` fields were never assigned
and remain at their zero values, although the source row is well formed. -/
theorem claim3_counterexample_cluster_share_unassigned_fields :
    GetShareData shareClusterInput =
      [⟨[], 1234, -1, str "10.0.0.1 (ipv4:10.0.0.1:445)", timeZero, str "-", str "-"⟩] ∧
    ([] : Str) = (⟨[], 1234, -1, str "10.0.0.1 (ipv4:10.0.0.1:445)", timeZero, str "-",
      str "-"⟩ : ShareData).Service := by
  refine ⟨by decide, by decide⟩

/-- Counterexample to claim C4: the identifier token `-2:1234` carries a
cluster-node prefix, yet the returned record has `ClusterNodeId = -2 < -1`,
because `strconv.Atoi` accepts the negative prefix. -/
theorem claim4_counterexample_negative_cluster_node_id :
    (GetLockData lockNegClusterInput).map (fun l => l.map LockData.ClusterNodeId) =
      .ok [-2] ∧ (-2 : Int) < -1 := by
  refine ⟨by decide, by decide⟩

/-! ## Helper lemmas -/



theorem collectFoldAux (descriptions : List (Str × PrometheusDesc))
    (stats : List SmbStatisticsNumeric) :
    ∀ (ms : List ConstMetric) (ls : List Str),
    stats.foldl (fun acc stat =>
      let dg := descrGet descriptions stat.Name
      let logs := if dg.2 = false then acc.2 ++ [noDescMsg stat.Name] else acc.2
      (acc.1 ++ [⟨dg.1, stat.Value⟩], logs)) (ms, ls) =
    (ms ++ stats.map (fun s => ⟨(descrGet descriptions s.Name).1, s.Value⟩),
     ls ++ (stats.filter (fun s => !(descrGet descriptions s.Name).2)).map
       (fun s => noDescMsg s.Name)) := by
  induction stats with
  | nil => intro ms ls; simp
  | cons s rest ih =>
    intro ms ls
    cases h : (descrGet descriptions s.Name).2 <;>
      simp [List.foldl_cons, h, ih, List.filter_cons]

theorem goIndex_ok (l : List Str) (i : Nat) (h : i < l.length) :
    goIndex l i = .ok (l.getD i []) := by
  simp [goIndex, List.getD_eq_getElem?_getD, List.getElem?_eq_getElem h]



theorem goSlice_nat (l : List Str) (a b : Nat) (hab : a ≤ b) (hb : b ≤ l.length) :
    goSlice l (a : Int) (b : Int) = .ok ((l.drop a).take (b - a)) := by
  have h1 : (0 : Int) ≤ a := by omega
  have h2 : (a : Int) ≤ b := by omega
  have h3 : (b : Int) ≤ (l.length : Int) := by omega
  simp only [goSlice, h1, h2, h3, and_self, if_true]
  have h4 : ((b : Int) - a).toNat = b - a := by omega
  have h5 : ((a : Int)).toNat = a := by omega
  rw [h4, h5]

theorem goSlice_tail (l : List Str) (k : Nat) (hk : k ≤ l.length) :
    goSlice l ((l.length : Int) - k) (l.length : Int) = .ok (l.drop (l.length - k)) := by
  have h1 : ((l.length : Int) - k) = ((l.length - k : Nat) : Int) := by omega
  rw [h1, goSlice_nat l (l.length - k) l.length (by omega) (by omega)]
  congr 1
  apply List.take_of_length_le
  simp



theorem lockRow_reduce (fields : List Str) (cni pid uid : Int)
    (h7 : 7 ≤ fields.length)
    (hid : parseIdToken (fields.getD 0 []) = some (cni, pid))
    (huid : atoiGo (fields.getD 1 []) = some uid) :
    lockRow fields =
      (let t5 := tryGetTimeStampFromStrArr (fields.drop (fields.length - 5))
       if t5.1 then
         if (fields.length : Int) - 5 ≤ 7 then .ok none
         else .ok (some ⟨pid, cni, uid, fields.getD 2 [], fields.getD 3 [], fields.getD 4 [],
           fields.getD 5 [], fields.getD 6 [],
           trimSpace (joinLead ((fields.drop 7).take (fields.length - 5 - 7))), t5.2⟩)
       else
         let t6 := tryGetTimeStampFromStrArr (fields.drop (fields.length - 6))
         if t6.1 then
           if (fields.length : Int) - 6 ≤ 7 then .ok none
           else .ok (some ⟨pid, cni, uid, fields.getD 2 [], fields.getD 3 [], fields.getD 4 [],
             fields.getD 5 [], fields.getD 6 [],
             trimSpace (joinLead ((fields.drop 7).take (fields.length - 6 - 7))), t6.2⟩)
         else .ok none) := by
  simp only [List.getD_eq_getElem?_getD] at hid huid
  have h0 := goIndex_ok fields 0 (by omega)
  have h1 := goIndex_ok fields 1 (by omega)
  have h2 := goIndex_ok fields 2 (by omega)
  have h3 := goIndex_ok fields 3 (by omega)
  have h4 := goIndex_ok fields 4 (by omega)
  have h5 := goIndex_ok fields 5 (by omega)
  have h6 := goIndex_ok fields 6 (by omega)
  have hw5 : goSlice fields ((fields.length : Int) - 5) (fields.length : Int) =
      .ok (fields.drop (fields.length - 5)) := by
    have := goSlice_tail fields 5 (by omega); simpa using this
  have hw6 : goSlice fields ((fields.length : Int) - 6) (fields.length : Int) =
      .ok (fields.drop (fields.length - 6)) := by
    have := goSlice_tail fields 6 (by omega); simpa using this
  by_cases ht5 : (tryGetTimeStampFromStrArr (fields.drop (fields.length - 5))).1 = true
  · by_cases hb5 : (fields.length : Int) - 5 ≤ 7
    · simp [lockRow, bind, Except.bind, pure, Except.pure, h0, h1, h2, h3, h4, h5, h6, hw5,
        hid, huid, ht5, hb5]
    · have hname5 : goSlice fields 7 ((fields.length : Int) - 5) =
          .ok ((fields.drop 7).take (fields.length - 5 - 7)) := by
        have h : ((fields.length : Int) - 5) = ((fields.length - 5 : Nat) : Int) := by omega
        rw [h]
        have := goSlice_nat fields 7 (fields.length - 5) (by omega) (by omega)
        simpa using this
      simp [lockRow, bind, Except.bind, pure, Except.pure, h0, h1, h2, h3, h4, h5, h6, hw5,
        hname5, hid, huid, ht5, hb5]
  · by_cases ht6 : (tryGetTimeStampFromStrArr (fields.drop (fields.length - 6))).1 = true
    · by_cases hb6 : (fields.length : Int) - 6 ≤ 7
      · simp [lockRow, bind, Except.bind, pure, Except.pure, h0, h1, h2, h3, h4, h5, h6, hw5,
          hw6, hid, huid, ht5, ht6, hb6]
      · have hname6 : goSlice fields 7 ((fields.length : Int) - 6) =
            .ok ((fields.drop 7).take (fields.length - 6 - 7)) := by
          have h : ((fields.length : Int) - 6) = ((fields.length - 6 : Nat) : Int) := by omega
          rw [h]
          have := goSlice_nat fields 7 (fields.length - 6) (by omega) (by omega)
          simpa using this
        simp [lockRow, bind, Except.bind, pure, Except.pure, h0, h1, h2, h3, h4, h5, h6, hw5,
          hw6, hname6, hid, huid, ht5, ht6, hb6]
    · simp [lockRow, bind, Except.bind, pure, Except.pure, h0, h1, h2, h3, h4, h5, h6, hw5,
        hw6, hid, huid, ht5, ht6]



theorem goIndex_ok_inv (l : List Str) (i : Nat) (v : Str) (h : goIndex l i = .ok v) :
    i < l.length ∧ v ∈ l := by
  unfold goIndex at h
  cases hg : l.get? i with
  | none => rw [hg] at h; exact absurd h (by simp)
  | some w =>
    rw [hg] at h
    cases h
    constructor
    · exact (List.get?_eq_some.mp hg).1
    · exact List.get?_mem hg

theorem goSlice_ok_inv (l : List Str) (a b : Int) (parts : List Str)
    (h : goSlice l a b = .ok parts) :
    0 ≤ a ∧ a ≤ b ∧ b ≤ (l.length : Int) ∧ parts = (l.drop a.toNat).take (b - a).toNat := by
  unfold goSlice at h
  by_cases hc : 0 ≤ a ∧ a ≤ b ∧ b ≤ (l.length : Int)
  · rw [if_pos hc] at h
    cases h
    exact ⟨hc.1, hc.2.1, hc.2.2, rfl⟩
  · rw [if_neg hc] at h
    exact absurd h (by simp)



theorem lockRow_some_inv (fields : List Str) (r : LockData)
    (h : lockRow fields = .ok (some r)) :
    7 ≤ fields.length ∧
    parseIdToken (fields.getD 0 []) = some (r.ClusterNodeId, r.PID) ∧
    atoiGo (fields.getD 1 []) = some r.UserID ∧
    r.DenyMode = fields.getD 2 [] ∧ r.Access = fields.getD 3 [] ∧
    r.AccessMode = fields.getD 4 [] ∧ r.Oplock = fields.getD 5 [] ∧
    r.SharePath = fields.getD 6 [] ∧
    ∃ parts, parts ≠ [] ∧ (∀ p, p ∈ parts → p ∈ fields) ∧
      r.Name = trimSpace (joinLead parts) := by
  simp only [lockRow, bind, Except.bind, pure, Except.pure] at h
  cases h0 : goIndex fields 0 with
  | error e => rw [h0] at h; simp at h
  | ok f0 =>
  rw [h0] at h; dsimp only at h
  cases hpi : parseIdToken f0 with
  | none => rw [hpi] at h; simp at h
  | some cp =>
  obtain ⟨cni, pid⟩ := cp
  rw [hpi] at h; dsimp only at h
  cases h1 : goIndex fields 1 with
  | error e => rw [h1] at h; simp at h
  | ok f1 =>
  rw [h1] at h; dsimp only at h
  cases hu : atoiGo f1 with
  | none => rw [hu] at h; simp at h
  | some uid =>
  rw [hu] at h; dsimp only at h
  cases h2 : goIndex fields 2 with
  | error e => rw [h2] at h; simp at h
  | ok f2 =>
  rw [h2] at h; dsimp only at h
  cases h3 : goIndex fields 3 with
  | error e => rw [h3] at h; simp at h
  | ok f3 =>
  rw [h3] at h; dsimp only at h
  cases h4 : goIndex fields 4 with
  | error e => rw [h4] at h; simp at h
  | ok f4 =>
  rw [h4] at h; dsimp only at h
  cases h5 : goIndex fields 5 with
  | error e => rw [h5] at h; simp at h
  | ok f5 =>
  rw [h5] at h; dsimp only at h
  cases h6 : goIndex fields 6 with
  | error e => rw [h6] at h; simp at h
  | ok f6 =>
  rw [h6] at h; dsimp only at h
  have hlen7 : 7 ≤ fields.length := (goIndex_ok_inv fields 6 f6 h6).1
  have hgd0 : fields.getD 0 [] = f0 := by
    have := goIndex_ok fields 0 (by omega); rw [h0] at this; cases this; rfl
  have hgd1 : fields.getD 1 [] = f1 := by
    have := goIndex_ok fields 1 (by omega); rw [h1] at this; cases this; rfl
  have hgd2 : fields.getD 2 [] = f2 := by
    have := goIndex_ok fields 2 (by omega); rw [h2] at this; cases this; rfl
  have hgd3 : fields.getD 3 [] = f3 := by
    have := goIndex_ok fields 3 (by omega); rw [h3] at this; cases this; rfl
  have hgd4 : fields.getD 4 [] = f4 := by
    have := goIndex_ok fields 4 (by omega); rw [h4] at this; cases this; rfl
  have hgd5 : fields.getD 5 [] = f5 := by
    have := goIndex_ok fields 5 (by omega); rw [h5] at this; cases this; rfl
  have hgd6 : fields.getD 6 [] = f6 := by
    have := goIndex_ok fields 6 (by omega); rw [h6] at this; cases this; rfl
  cases hw5 : goSlice fields ((fields.length : Int) - 5) (fields.length : Int) with
  | error e => rw [hw5] at h; simp at h
  | ok w5 =>
  rw [hw5] at h; dsimp only at h
  by_cases ht5 : (tryGetTimeStampFromStrArr w5).1 = true
  · rw [if_pos ht5] at h
    by_cases hb5 : (fields.length : Int) - 5 ≤ 7
    · rw [if_pos hb5] at h; simp at h
    · rw [if_neg hb5] at h
      cases hp : goSlice fields 7 ((fields.length : Int) - 5) with
      | error e => rw [hp] at h; simp at h
      | ok parts =>
      rw [hp] at h; dsimp only at h
      have hr : r = ⟨pid, cni, uid, f2, f3, f4, f5, f6,
          trimSpace (joinLead parts), (tryGetTimeStampFromStrArr w5).2⟩ := by
        cases h; rfl
      obtain ⟨hpa, hpb, hpc, hpd⟩ := goSlice_ok_inv _ _ _ _ hp
      refine ⟨hlen7, ?_, ?_, ?_, ?_, ?_, ?_, ?_, parts, ?_, ?_, ?_⟩
      · rw [hgd0, hpi, hr]
      · rw [hgd1, hu, hr]
      · rw [hr, hgd2]
      · rw [hr, hgd3]
      · rw [hr, hgd4]
      · rw [hr, hgd5]
      · rw [hr, hgd6]
      · rw [hpd]
        intro hnil
        have hlnil := congrArg List.length hnil
        simp at hlnil
        omega
      · intro p hp2
        rw [hpd] at hp2
        exact List.drop_subset _ _ (List.take_subset _ _ hp2)
      · rw [hr]
  · rw [if_neg ht5] at h
    cases hw6 : goSlice fields ((fields.length : Int) - 6) (fields.length : Int) with
    | error e => rw [hw6] at h; simp at h
    | ok w6 =>
    rw [hw6] at h; dsimp only at h
    by_cases ht6 : (tryGetTimeStampFromStrArr w6).1 = true
    · rw [if_pos ht6] at h
      by_cases hb6 : (fields.length : Int) - 6 ≤ 7
      · rw [if_pos hb6] at h; simp at h
      · rw [if_neg hb6] at h
        cases hp : goSlice fields 7 ((fields.length : Int) - 6) with
        | error e => rw [hp] at h; simp at h
        | ok parts =>
        rw [hp] at h; dsimp only at h
        have hr : r = ⟨pid, cni, uid, f2, f3, f4, f5, f6,
            trimSpace (joinLead parts), (tryGetTimeStampFromStrArr w6).2⟩ := by
          cases h; rfl
        obtain ⟨hpa, hpb, hpc, hpd⟩ := goSlice_ok_inv _ _ _ _ hp
        refine ⟨hlen7, ?_, ?_, ?_, ?_, ?_, ?_, ?_, parts, ?_, ?_, ?_⟩
        · rw [hgd0, hpi, hr]
        · rw [hgd1, hu, hr]
        · rw [hr, hgd2]
        · rw [hr, hgd3]
        · rw [hr, hgd4]
        · rw [hr, hgd5]
        · rw [hr, hgd6]
        · rw [hpd]
          intro hnil
          have hlnil := congrArg List.length hnil
          simp at hlnil
          omega
        · intro p hp2
          rw [hpd] at hp2
          exact List.drop_subset _ _ (List.take_subset _ _ hp2)
        · rw [hr]
    · rw [if_neg ht6] at h; simp at h



theorem trimLeftSpace_shape (s : Str) :
    trimLeftSpace s = [] ∨ ∃ c t, trimLeftSpace s = c :: t ∧ isGoSpace c = false := by
  induction s with
  | nil => left; rfl
  | cons c rest ih =>
    by_cases hc : isGoSpace c
    · simpa [trimLeftSpace, hc] using ih
    · right
      refine ⟨c, rest, by simp [trimLeftSpace, hc], by simpa using hc⟩

theorem trimLeftSpace_eq_nil_all (s : Str) (h : trimLeftSpace s = []) :
    ∀ c ∈ s, isGoSpace c = true := by
  induction s with
  | nil => simp
  | cons c rest ih =>
    by_cases hc : isGoSpace c
    · rw [trimLeftSpace, if_pos hc] at h
      intro d hd
      rcases List.mem_cons.mp hd with hd | hd
      · rw [hd]; exact hc
      · exact ih h d hd
    · rw [trimLeftSpace, if_neg hc] at h
      exact absurd h (by simp)

theorem mem_trimLeftSpace_or_space (s : Str) (c : Char) (hc : c ∈ s) :
    isGoSpace c = true ∨ c ∈ trimLeftSpace s := by
  induction s with
  | nil => exact absurd hc (by simp)
  | cons d rest ih =>
    by_cases hd : isGoSpace d
    · rw [trimLeftSpace, if_pos hd]
      rcases List.mem_cons.mp hc with h | h
      · left; rw [h]; exact hd
      · exact ih h
    · rw [trimLeftSpace, if_neg hd]
      right; exact hc

theorem trimSpace_ne_nil_of_nonspace (s : Str) (c : Char) (hc : c ∈ s)
    (hns : isGoSpace c = false) : trimSpace s ≠ [] := by
  intro h
  unfold trimSpace at h
  rw [List.reverse_eq_nil_iff] at h
  have hall : ∀ d ∈ List.reverse (trimLeftSpace s), isGoSpace d = true :=
    trimLeftSpace_eq_nil_all _ h
  rcases mem_trimLeftSpace_or_space s c hc with hsp | hmem
  · rw [hsp] at hns; cases hns
  · have := hall c (List.mem_reverse.mpr hmem)
    rw [this] at hns; cases hns

theorem trimSpace_has_nonspace (q : Str) (h : trimSpace q ≠ []) :
    ∃ c ∈ trimSpace q, isGoSpace c = false := by
  unfold trimSpace at h ⊢
  rcases trimLeftSpace_shape (List.reverse (trimLeftSpace q)) with hnil | ⟨c, t, heq, hns⟩
  · rw [hnil] at h; simp at h
  · exact ⟨c, by rw [heq]; simp, hns⟩

theorem joinLead_shift (parts : List Str) (acc : Str) :
    parts.foldl (fun a p => a ++ ' ' :: p) acc = acc ++ joinLead parts := by
  induction parts generalizing acc with
  | nil => simp [joinLead]
  | cons p rest ih =>
    simp only [joinLead, List.foldl_cons, List.nil_append] at ih ⊢
    rw [ih (acc ++ ' ' :: p), ih (' ' :: p)]
    simp

theorem mem_joinLead (parts : List Str) (p : Str) (c : Char) (hp : p ∈ parts) (hc : c ∈ p) :
    c ∈ joinLead parts := by
  induction parts with
  | nil => exact absurd hp (by simp)
  | cons q rest ih =>
    have hcons : joinLead (q :: rest) = (' ' :: q) ++ joinLead rest := by
      simp only [joinLead, List.foldl_cons, List.nil_append]
      exact joinLead_shift rest (' ' :: q)
    rw [hcons]
    rcases List.mem_cons.mp hp with h | h
    · subst h; exact List.mem_append.mpr (Or.inl (by simpa using Or.inr hc))
    · exact List.mem_append.mpr (Or.inr (ih h))

theorem joined_name_ne_nil (parts : List Str) (hne : parts ≠ [])
    (hgood : ∀ p ∈ parts, p ≠ [] ∧ ∃ q, p = trimSpace q) :
    trimSpace (joinLead parts) ≠ [] := by
  obtain ⟨p, rest, rfl⟩ := List.exists_cons_of_ne_nil hne
  obtain ⟨hpne, q, hq⟩ := hgood p (by simp)
  have htr : trimSpace q ≠ [] := by rw [← hq]; exact hpne
  obtain ⟨c, hcmem, hcns⟩ := trimSpace_has_nonspace q htr
  rw [← hq] at hcmem
  exact trimSpace_ne_nil_of_nonspace _ c
    (mem_joinLead _ p c (by simp) hcmem) hcns

theorem mem_splitNonEmptyTrimmed (sep line t : Str) (h : t ∈ splitNonEmptyTrimmed sep line) :
    t ≠ [] ∧ ∃ q, t = trimSpace q := by
  unfold splitNonEmptyTrimmed at h
  have hm := List.mem_filter.mp h
  obtain ⟨q, _, hq⟩ := List.mem_map.mp hm.1
  exact ⟨by simpa using hm.2, q, hq.symm⟩

theorem getFieldMatrix_row (ls : List Str) (sep : Str) (fields : List Str)
    (h : fields ∈ getFieldMatrix ls sep) :
    ∃ line, fields = splitNonEmptyTrimmed sep line := by
  obtain ⟨line, _, hl⟩ := List.mem_map.mp h
  exact ⟨line, hl.symm⟩

theorem getFieldMatrixFixLength_row (ls : List Str) (sep : Str) (k : Nat)
    (fields : List Str) (h : fields ∈ getFieldMatrixFixLength ls sep k) :
    (∃ line, fields = splitNonEmptyTrimmed sep line) ∧ fields.length = k := by
  have hm := List.mem_filter.mp h
  exact ⟨getFieldMatrix_row ls sep fields hm.1, by simpa using hm.2⟩

theorem goodRow_token_mem (sep line : Str) (fields : List Str)
    (hf : fields = splitNonEmptyTrimmed sep line) (t : Str) (ht : t ∈ fields) :
    t ≠ [] ∧ ∃ q, t = trimSpace q :=
  mem_splitNonEmptyTrimmed sep line t (hf ▸ ht)

theorem goodRow_getD (sep line : Str) (fields : List Str)
    (hf : fields = splitNonEmptyTrimmed sep line) (k : Nat) (hk : k < fields.length) :
    fields.getD k [] ≠ [] := by
  have hmem : fields.getD k [] ∈ fields := by
    rw [List.getD_eq_getElem?_getD, List.getElem?_eq_getElem hk]
    exact List.getElem_mem hk
  exact (goodRow_token_mem sep line fields hf _ hmem).1



theorem shareRowC12_inv (fields : List Str) (r : ShareData)
    (h : shareRowC12 fields = some r) :
    r.Service = fields.getD 0 [] ∧ r.Machine = fields.getD 2 [] ∧
    r.Encryption = fields.getD 10 [] ∧ r.Signing = fields.getD 11 [] ∧
    parseIdToken (fields.getD 1 []) = some (r.ClusterNodeId, r.PID) := by
  unfold shareRowC12 at h
  cases hpi : parseIdToken (fields.getD 1 []) with
  | none => rw [hpi] at h; simp at h
  | some cp =>
  obtain ⟨cni, pid⟩ := cp
  rw [hpi] at h; dsimp only at h
  split at h
  · cases h; refine ⟨rfl, rfl, rfl, rfl, by simpa using hpi⟩
  · split at h
    · cases h; refine ⟨rfl, rfl, rfl, rfl, by simpa using hpi⟩
    · cases h

theorem shareRowC11_inv (fields : List Str) (r : ShareData)
    (h : shareRowC11 fields = some r) :
    r.Service = fields.getD 0 [] ∧ r.Machine = fields.getD 2 [] ∧
    r.Encryption = fields.getD 9 [] ∧ r.Signing = fields.getD 10 [] ∧
    parseIdToken (fields.getD 1 []) = some (r.ClusterNodeId, r.PID) := by
  unfold shareRowC11 at h
  cases hpi : parseIdToken (fields.getD 1 []) with
  | none => rw [hpi] at h; simp at h
  | some cp =>
  obtain ⟨cni, pid⟩ := cp
  rw [hpi] at h; dsimp only at h
  split at h
  · cases h; refine ⟨rfl, rfl, rfl, rfl, by simpa using hpi⟩
  · split at h
    · cases h; refine ⟨rfl, rfl, rfl, rfl, by simpa using hpi⟩
    · cases h

theorem shareRowCluster_inv (fields : List Str) (r : ShareData)
    (h : shareRowCluster fields = some r) :
    r.Service = [] ∧ r.ConnectedAt = timeZero ∧
    r.Machine = fields.getD 3 [] ++ ' ' :: fields.getD 4 [] ∧
    r.Encryption = fields.getD 6 [] ∧ r.Signing = fields.getD 7 [] ∧
    parseIdToken (fields.getD 0 []) = some (r.ClusterNodeId, r.PID) := by
  unfold shareRowCluster at h
  cases hpi : parseIdToken (fields.getD 0 []) with
  | none => rw [hpi] at h; simp at h
  | some cp =>
  obtain ⟨cni, pid⟩ := cp
  rw [hpi] at h; dsimp only at h
  cases h
  refine ⟨rfl, rfl, rfl, rfl, rfl, by simpa using hpi⟩

theorem processRow_inv (v : Str) (fields : List Str) (r : ProcessData)
    (h : processRow v fields = some r) :
    parseIdToken (fields.getD 0 []) = some (r.ClusterNodeId, r.PID) ∧
    r.Machine = fields.getD 3 [] ++ ' ' :: fields.getD 4 [] ∧
    r.ProtocolVersion = fields.getD 5 [] ∧ r.Encryption = fields.getD 6 [] ∧
    r.Signing = fields.getD 7 [] ∧ r.SambaVersion = v ∧
    (fields.getD 1 [] = str "nobody" → r.UserID = -1) ∧
    (fields.getD 2 [] = str "nogroup" → r.GroupID = -1) := by
  unfold processRow at h
  cases hpi : parseIdToken (fields.getD 0 []) with
  | none => rw [hpi] at h; simp at h
  | some cp =>
  obtain ⟨cni, pid⟩ := cp
  rw [hpi] at h; dsimp only at h
  by_cases hnb : fields.getD 1 [] = str "nobody"
  · rw [if_pos hnb] at h
    dsimp only at h
    by_cases hng : fields.getD 2 [] = str "nogroup"
    · rw [if_pos hng] at h
      dsimp only at h
      cases h
      refine ⟨by simpa using hpi, rfl, rfl, rfl, rfl, rfl, fun _ => rfl, fun _ => rfl⟩
    · rw [if_neg hng] at h
      cases hg : atoiGo (fields.getD 2 []) with
      | none => rw [hg] at h; simp at h
      | some gid =>
        rw [hg] at h; dsimp only at h
        cases h
        refine ⟨by simpa using hpi, rfl, rfl, rfl, rfl, rfl, fun _ => rfl, fun hc => absurd hc hng⟩
  · rw [if_neg hnb] at h
    cases huu : atoiGo (fields.getD 1 []) with
    | none => rw [huu] at h; simp at h
    | some uid =>
    rw [huu] at h; dsimp only at h
    by_cases hng : fields.getD 2 [] = str "nogroup"
    · rw [if_pos hng] at h
      dsimp only at h
      cases h
      refine ⟨by simpa using hpi, rfl, rfl, rfl, rfl, rfl, fun hc => absurd hc hnb, fun _ => rfl⟩
    · rw [if_neg hng] at h
      cases hg : atoiGo (fields.getD 2 []) with
      | none => rw [hg] at h; simp at h
      | some gid =>
        rw [hg] at h; dsimp only at h
        cases h
        refine ⟨by simpa using hpi, rfl, rfl, rfl, rfl, rfl, fun hc => absurd hc hnb, fun hc => absurd hc hng⟩



theorem lockRows_mem (rows : List (List Str)) (l : List LockData)
    (h : lockRows rows = .ok l) (r : LockData) (hr : r ∈ l) :
    ∃ fields, fields ∈ rows ∧ lockRow fields = .ok (some r) := by
  induction rows generalizing l with
  | nil =>
    simp only [lockRows] at h
    cases h
    simp at hr
  | cons f rest ih =>
    simp only [lockRows, bind, Except.bind, pure, Except.pure] at h
    cases hf : lockRow f with
    | error e => rw [hf] at h; simp at h
    | ok r0 =>
    rw [hf] at h; dsimp only at h
    cases ht : lockRows rest with
    | error e => rw [ht] at h; simp at h
    | ok tail =>
    rw [ht] at h; dsimp only at h
    cases r0 with
    | none =>
      cases h
      obtain ⟨fields, hmem, hrow⟩ := ih _ ht hr
      exact ⟨fields, by simp [hmem], hrow⟩
    | some e =>
      cases h
      rcases List.mem_cons.mp hr with hre | hre
      · subst hre; exact ⟨f, by simp, hf⟩
      · obtain ⟨fields, hmem, hrow⟩ := ih _ ht hre
        exact ⟨fields, by simp [hmem], hrow⟩

theorem GetLockData_ok_mem (data : Str) (l : List LockData) (h : GetLockData data = .ok l)
    (r : LockData) (hr : r ∈ l) :
    ∃ fields, (∃ line, fields = splitNonEmptyTrimmed (str " ") line) ∧
      lockRow fields = .ok (some r) := by
  simp only [GetLockData] at h
  split at h
  · cases h; simp at hr
  · split at h
    · cases h; simp at hr
    · split at h
      · cases h; simp at hr
      · obtain ⟨fields, hfm, hrow⟩ := lockRows_mem _ _ h r hr
        exact ⟨fields, getFieldMatrix_row _ _ _ hfm, hrow⟩

theorem GetShareData_normal_mem (data : Str) (r : ShareData)
    (hmode : shareModeOfData data = str "normal") (hr : r ∈ GetShareData data) :
    ∃ fields, (∃ line, fields = splitNonEmptyTrimmed (str " ") line) ∧
      ((fields.length = 12 ∧ shareRowC12 fields = some r) ∨
       (fields.length = 11 ∧ shareRowC11 fields = some r)) := by
  unfold GetShareData at hr
  rw [hmode, if_pos rfl] at hr
  by_cases h12 : getFieldMatrixFixLength
      ((dataLines data).drop ((findSeperatorLineIndex (dataLines data)).toNat + 1)) (str " ") 12 ≠ []
  · rw [if_pos h12] at hr
    obtain ⟨fields, hmem, hrow⟩ := List.mem_filterMap.mp hr
    obtain ⟨hline, hlen⟩ := getFieldMatrixFixLength_row _ _ _ _ hmem
    exact ⟨fields, hline, Or.inl ⟨hlen, hrow⟩⟩
  · rw [if_neg h12] at hr
    obtain ⟨fields, hmem, hrow⟩ := List.mem_filterMap.mp hr
    obtain ⟨hline, hlen⟩ := getFieldMatrixFixLength_row _ _ _ _ hmem
    exact ⟨fields, hline, Or.inr ⟨hlen, hrow⟩⟩

theorem GetShareData_cluster_mem (data : Str) (r : ShareData)
    (hmode : shareModeOfData data = str "cluster") (hr : r ∈ GetShareData data) :
    ∃ fields, (∃ line, fields = splitNonEmptyTrimmed (str " ") line) ∧
      fields.length = 8 ∧ shareRowCluster fields = some r := by
  unfold GetShareData at hr
  rw [hmode] at hr
  rw [if_neg (by decide), if_pos rfl] at hr
  obtain ⟨fields, hmem, hrow⟩ := List.mem_filterMap.mp hr
  obtain ⟨hline, hlen⟩ := getFieldMatrixFixLength_row _ _ _ _ hmem
  exact ⟨fields, hline, hlen, hrow⟩

theorem GetProcessData_mem (data : Str) (r : ProcessData) (hr : r ∈ GetProcessData data) :
    ∃ fields, (∃ line, fields = splitNonEmptyTrimmed (str " ") line) ∧
      fields.length = 8 ∧ ∃ v, processRow v fields = some r := by
  simp only [GetProcessData] at hr
  split at hr
  · simp at hr
  · split at hr
    · simp at hr
    · split at hr
      · simp at hr
      · obtain ⟨fields, hmem, hrow⟩ := List.mem_filterMap.mp hr
        obtain ⟨hline, hlen⟩ := getFieldMatrixFixLength_row _ _ _ _ hmem
        exact ⟨fields, hline, hlen, _, hrow⟩



/-- Claim C3, amended: every record returned by `GetLockData` and
`GetProcessData`, and every record the normal-mode branch of `GetShareData`
returns, has all of its string fields populated from nonempty source-line
tokens; the cluster-mode branch of `GetShareData`, however, never assigns
`Service` and `ConnectedAt`, which always remain at their zero values. -/
theorem claim3_amended_cluster_share_leaves_service_unset (data : Str) :
    (∀ l r, GetLockData data = .ok l → r ∈ l →
      r.DenyMode ≠ [] ∧ r.Access ≠ [] ∧ r.AccessMode ≠ [] ∧ r.Oplock ≠ [] ∧
      r.SharePath ≠ [] ∧ r.Name ≠ []) ∧
    (∀ r, r ∈ GetProcessData data →
      r.Machine ≠ [] ∧ r.ProtocolVersion ≠ [] ∧ r.Encryption ≠ [] ∧ r.Signing ≠ []) ∧
    (∀ r, r ∈ GetShareData data →
      (shareModeOfData data = str "normal" →
        r.Service ≠ [] ∧ r.Machine ≠ [] ∧ r.Encryption ≠ [] ∧ r.Signing ≠ []) ∧
      (shareModeOfData data = str "cluster" →
        r.Service = [] ∧ r.ConnectedAt = timeZero)) := by
  refine ⟨?_, ?_, ?_⟩
  · intro l r h hr
    obtain ⟨fields, ⟨line, hline⟩, hrow⟩ := GetLockData_ok_mem data l h r hr
    obtain ⟨hlen, hid, hu, hDM, hA, hAM, hO, hSP, parts, hpne, hpmem, hname⟩ :=
      lockRow_some_inv fields r hrow
    refine ⟨?_, ?_, ?_, ?_, ?_, ?_⟩
    · rw [hDM]; exact goodRow_getD _ _ _ hline 2 (by omega)
    · rw [hA]; exact goodRow_getD _ _ _ hline 3 (by omega)
    · rw [hAM]; exact goodRow_getD _ _ _ hline 4 (by omega)
    · rw [hO]; exact goodRow_getD _ _ _ hline 5 (by omega)
    · rw [hSP]; exact goodRow_getD _ _ _ hline 6 (by omega)
    · rw [hname]
      exact joined_name_ne_nil parts hpne
        (fun p hp => goodRow_token_mem _ _ _ hline p (hpmem p hp))
  · intro r hr
    obtain ⟨fields, ⟨line, hline⟩, hlen, v, hrow⟩ := GetProcessData_mem data r hr
    obtain ⟨hid, hM, hPV, hE, hS, hV, _, _⟩ := processRow_inv v fields r hrow
    refine ⟨?_, ?_, ?_, ?_⟩
    · rw [hM]; simp
    · rw [hPV]; exact goodRow_getD _ _ _ hline 5 (by omega)
    · rw [hE]; exact goodRow_getD _ _ _ hline 6 (by omega)
    · rw [hS]; exact goodRow_getD _ _ _ hline 7 (by omega)
  · intro r hr
    constructor
    · intro hmode
      obtain ⟨fields, ⟨line, hline⟩, hcase⟩ := GetShareData_normal_mem data r hmode hr
      rcases hcase with ⟨hlen, hrow⟩ | ⟨hlen, hrow⟩
      · obtain ⟨hSv, hM, hE, hS, hid⟩ := shareRowC12_inv fields r hrow
        refine ⟨?_, ?_, ?_, ?_⟩
        · rw [hSv]; exact goodRow_getD _ _ _ hline 0 (by omega)
        · rw [hM]; exact goodRow_getD _ _ _ hline 2 (by omega)
        · rw [hE]; exact goodRow_getD _ _ _ hline 10 (by omega)
        · rw [hS]; exact goodRow_getD _ _ _ hline 11 (by omega)
      · obtain ⟨hSv, hM, hE, hS, hid⟩ := shareRowC11_inv fields r hrow
        refine ⟨?_, ?_, ?_, ?_⟩
        · rw [hSv]; exact goodRow_getD _ _ _ hline 0 (by omega)
        · rw [hM]; exact goodRow_getD _ _ _ hline 2 (by omega)
        · rw [hE]; exact goodRow_getD _ _ _ hline 9 (by omega)
        · rw [hS]; exact goodRow_getD _ _ _ hline 10 (by omega)
    · intro hmode
      obtain ⟨fields, ⟨line, hline⟩, hlen, hrow⟩ := GetShareData_cluster_mem data r hmode hr
      obtain ⟨hSv, hCA, _⟩ := shareRowCluster_inv fields r hrow
      exact ⟨hSv, hCA⟩






theorem atoiGo_nonneg (tok : Str) (v : Int) (h : atoiGo tok = some v)
    (hh : tok.head? ≠ some '-') : 0 ≤ v := by
  rcases tok with _ | ⟨c, rest⟩
  · simp [atoiGo] at h
  · by_cases hm : c = '-'
    · subst hm; simp at hh
    · by_cases hp : c = '+'
      · subst hp
        simp [atoiGo] at h
        omega
      · simp [atoiGo, hp, hm] at h
        omega

theorem parseIdToken_char (tok : Str) (cni pid : Int)
    (h : parseIdToken tok = some (cni, pid)) :
    (tok.contains ':' = false → cni = -1) ∧
    (tok.contains ':' = true → atoiGo ((splitGo (str ":") tok).getD 0 []) = some cni) ∧
    (tok.contains ':' = true → ((splitGo (str ":") tok).getD 0 []).head? ≠ some '-' →
      0 ≤ cni) := by
  simp only [parseIdToken] at h
  by_cases hc : tok.contains ':'
  · rw [if_pos hc] at h
    cases ha : atoiGo ((splitGo (str ":") tok).getD 0 []) with
    | none => rw [ha] at h; simp at h
    | some a =>
    rw [ha] at h
    cases hb : atoiGo ((splitGo (str ":") tok).getD 1 []) with
    | none => rw [hb] at h; simp at h
    | some b =>
    rw [hb] at h; dsimp only at h
    cases h
    refine ⟨fun hf => by rw [hf] at hc; simp at hc, fun _ => rfl,
      fun _ hhd => atoiGo_nonneg _ _ ha hhd⟩
  · rw [if_neg hc] at h
    cases ha : atoiGo tok with
    | none => rw [ha] at h; simp at h
    | some a =>
    rw [ha] at h; dsimp only at h
    cases h
    exact ⟨fun _ => rfl, fun ht => absurd ht hc, fun ht _ => absurd ht hc⟩

theorem replicate_isPrefixOf_iff (n : Nat) (l : Str) :
    (List.replicate n '-').isPrefixOf l = true ↔
      n ≤ (l.takeWhile (fun c => c = '-')).length := by
  induction n generalizing l with
  | zero => simp [List.isPrefixOf]
  | succ k ih =>
    cases l with
    | nil => simp [List.replicate_succ, List.isPrefixOf]
    | cons d t =>
      by_cases hd : d = '-'
      · subst hd
        have h1 : (List.replicate (k + 1) '-').isPrefixOf ('-' :: t) =
            (List.replicate k '-').isPrefixOf t := by
          simp [List.replicate_succ, List.isPrefixOf]
        rw [h1, ih]
        simp only [List.takeWhile_cons, decide_eq_true_eq, if_pos rfl]
        simp
      · have h1 : (List.replicate (k + 1) '-').isPrefixOf (d :: t) = false := by
          simp [List.replicate_succ, List.isPrefixOf]
          intro he
          exact absurd he.symm hd
        rw [h1]
        have h2 : (d :: t).takeWhile (fun c => c = '-') = [] := by
          simp [List.takeWhile_cons, hd]
        rw [h2]
        simp

theorem findIdx?_spec (p : Str → Bool) (lines : List Str) :
    ∀ (i : Nat), lines.findIdx? p = some i ↔
      (i < lines.length ∧ p (lines.getD i []) = true ∧
       ∀ j, j < i → p (lines.getD j []) = false) := by
  induction lines with
  | nil => intro i; simp
  | cons a t ih =>
    intro i
    rw [List.findIdx?_cons]
    by_cases hp : p a = true
    · rw [if_pos hp]
      constructor
      · intro h
        cases h
        exact ⟨by simp, by simpa using hp, fun j hj => by omega⟩
      · rintro ⟨h1, h2, h3⟩
        cases i with
        | zero => rfl
        | succ m => exact absurd hp (by simpa using h3 0 (by omega))
    · rw [if_neg hp, List.findIdx?_succ]
      cases i with
      | zero =>
        constructor
        · intro h
          rcases Option.map_eq_some'.mp h with ⟨m, hm2, he⟩
          omega
        · rintro ⟨h1, h2, h3⟩
          exact absurd h2 (by simpa using hp)
      | succ m =>
        constructor
        · intro h
          have hm : t.findIdx? p = some m := by
            rcases Option.map_eq_some'.mp h with ⟨m2, hm2, he⟩
            have hme : m2 = m := by omega
            rw [← hme]; exact hm2
          obtain ⟨h1, h2, h3⟩ := (ih m).mp hm
          refine ⟨by simpa using h1, by simpa using h2, ?_⟩
          intro j hj
          cases j with
          | zero => simpa using hp
          | succ j2 => simpa using h3 j2 (by omega)
        · rintro ⟨h1, h2, h3⟩
          have hm : t.findIdx? p = some m := by
            rw [ih m]
            refine ⟨by simpa using h1, by simpa using h2, ?_⟩
            intro j hj
            simpa using h3 (j + 1) (by omega)
          rw [hm]
          rfl

theorem findSeperatorLineIndex_coe_iff (lines : List Str) (i : Nat) :
    findSeperatorLineIndex lines = (i : Int) ↔
      (i < lines.length ∧ sepDashes.isPrefixOf (lines.getD i []) = true ∧
       ∀ j, j < i → sepDashes.isPrefixOf (lines.getD j []) = false) := by
  rw [← findIdx?_spec (fun line => sepDashes.isPrefixOf line) lines i]
  cases hf : lines.findIdx? (fun line => sepDashes.isPrefixOf line) with
  | none =>
    simp only [findSeperatorLineIndex, hf]
    constructor
    · intro h; exact absurd h (by omega)
    · intro h; simp at h
  | some m =>
    simp only [findSeperatorLineIndex, hf]
    constructor
    · intro h
      have hmi : m = i := by omega
      rw [hmi]
    · intro h
      have hmi : m = i := Option.some.inj h
      rw [hmi]

theorem findSeperatorLineIndex_neg_iff (lines : List Str) :
    findSeperatorLineIndex lines = -1 ↔
      ∀ l ∈ lines, sepDashes.isPrefixOf l = false := by
  rw [← List.findIdx?_eq_none_iff (p := fun line => sepDashes.isPrefixOf line)]
  cases hf : lines.findIdx? (fun line => sepDashes.isPrefixOf line) with
  | none => simp only [findSeperatorLineIndex, hf]
  | some m =>
    simp only [findSeperatorLineIndex, hf]
    constructor
    · intro h; exact absurd h (by omega)
    · intro h; simp at h

/-- Claim C2, amended: the `Collect` loop emits one sample for every
aggregated statistic — using the registered descriptor when one exists and
the zero-value descriptor otherwise — and logs one "No description found"
message per statistic whose name has no registered descriptor; no statistic
is skipped. -/
theorem claim2_amended_collect_emits_sample_per_stat
    (descriptions : List (Str × PrometheusDesc)) (stats : List SmbStatisticsNumeric) :
    (collectLoop descriptions stats).1 =
      stats.map (fun s => ⟨(descrGet descriptions s.Name).1, s.Value⟩) ∧
    (collectLoop descriptions stats).2 =
      (stats.filter (fun s => !(descrGet descriptions s.Name).2)).map
        (fun s => noDescMsg s.Name) := by
  constructor <;> simp [collectLoop, collectFoldAux descriptions stats [] []]

/-- Witness for the amended claim C3, at the concrete cluster-mode shares
table: the returned record's `Service` is empty and its `ConnectedAt` is the
zero time. -/
theorem claim3_amended_witness :
    (⟨[], 1234, -1, str "10.0.0.1 (ipv4:10.0.0.1:445)", timeZero, str "-", str "-"⟩ :
      ShareData).Service = [] ∧
    (⟨[], 1234, -1, str "10.0.0.1 (ipv4:10.0.0.1:445)", timeZero, str "-", str "-"⟩ :
      ShareData).ConnectedAt = timeZero :=
  ((claim3_amended_cluster_share_leaves_service_unset shareClusterInput).2.2
    ⟨[], 1234, -1, str "10.0.0.1 (ipv4:10.0.0.1:445)", timeZero, str "-", str "-"⟩
    (by decide)).2 (by decide)

/-- Claim C6: on a lock-table data row whose fixed leading columns parse, the
parser first tries the string rebuilt from the last 5 tokens against the
ordered timestamp-pattern list and only if none matches retries with the last
6 tokens; the first success fixes the timestamp and the start index of the
consumed trailing tokens; the name is the trimmed space-join of the tokens
from fixed index 7 up to that start index, and if no window matches, or the
boundary leaves no name tokens (start index at most 7), the row yields no
record. -/
theorem claim6_timestamp_window_then_name (fields : List Str) (cni pid uid : Int)
    (h7 : 7 ≤ fields.length)
    (hid : parseIdToken (fields.getD 0 []) = some (cni, pid))
    (huid : atoiGo (fields.getD 1 []) = some uid) :
    ((tryGetTimeStampFromStrArr (fields.drop (fields.length - 5))).1 = true →
      8 ≤ fields.length - 5 →
      lockRow fields = .ok (some ⟨pid, cni, uid, fields.getD 2 [], fields.getD 3 [],
        fields.getD 4 [], fields.getD 5 [], fields.getD 6 [],
        trimSpace (joinLead ((fields.drop 7).take (fields.length - 5 - 7))),
        (tryGetTimeStampFromStrArr (fields.drop (fields.length - 5))).2⟩)) ∧
    ((tryGetTimeStampFromStrArr (fields.drop (fields.length - 5))).1 = true →
      fields.length - 5 ≤ 7 → lockRow fields = .ok none) ∧
    ((tryGetTimeStampFromStrArr (fields.drop (fields.length - 5))).1 = false →
      (tryGetTimeStampFromStrArr (fields.drop (fields.length - 6))).1 = true →
      8 ≤ fields.length - 6 →
      lockRow fields = .ok (some ⟨pid, cni, uid, fields.getD 2 [], fields.getD 3 [],
        fields.getD 4 [], fields.getD 5 [], fields.getD 6 [],
        trimSpace (joinLead ((fields.drop 7).take (fields.length - 6 - 7))),
        (tryGetTimeStampFromStrArr (fields.drop (fields.length - 6))).2⟩)) ∧
    ((tryGetTimeStampFromStrArr (fields.drop (fields.length - 5))).1 = false →
      (tryGetTimeStampFromStrArr (fields.drop (fields.length - 6))).1 = true →
      fields.length - 6 ≤ 7 → lockRow fields = .ok none) ∧
    ((tryGetTimeStampFromStrArr (fields.drop (fields.length - 5))).1 = false →
      (tryGetTimeStampFromStrArr (fields.drop (fields.length - 6))).1 = false →
      lockRow fields = .ok none) := by
  rw [lockRow_reduce fields cni pid uid h7 hid huid]
  refine ⟨?_, ?_, ?_, ?_, ?_⟩
  · intro ht5 hn
    have hb : ¬((fields.length : Int) - 5 ≤ 7) := by omega
    simp [ht5, hb]
  · intro ht5 hn
    have hb : ((fields.length : Int) - 5 ≤ 7) := by omega
    simp [ht5, hb]
  · intro ht5 ht6 hn
    have hb : ¬((fields.length : Int) - 6 ≤ 7) := by omega
    simp [ht5, ht6, hb]
  · intro ht5 ht6 hn
    have hb : ((fields.length : Int) - 6 ≤ 7) := by omega
    simp [ht5, ht6, hb]
  · intro ht5 ht6
    simp [ht5, ht6]

/-- Witness for claim C6 at the known-good data row: the 5-token window
matches, the boundary is index 8, and the name is "file.txt". -/
theorem claim6_witness :
    lockRow [str "1234", str "0", str "DENY_NONE", str "RDONLY", str "NONE", str "-",
      str "/srv/share", str "file.txt", str "Mon", str "Jan", str "2", str "15:04:05",
      str "2006"] =
    .ok (some ⟨1234, -1, 0, str "DENY_NONE", str "RDONLY", str "NONE", str "-",
      str "/srv/share", str "file.txt", ⟨2006, 1, 2, 15, 4, 5, 0, str "Local"⟩⟩) := by
  rw [(claim6_timestamp_window_then_name
    [str "1234", str "0", str "DENY_NONE", str "RDONLY", str "NONE", str "-",
     str "/srv/share", str "file.txt", str "Mon", str "Jan", str "2", str "15:04:05",
     str "2006"] (-1) 1234 0 (by decide) (by decide) (by decide)).1 (by decide) (by decide)]
  decide

/-- Claim C4, amended: every record of the three parsers takes its
`(ClusterNodeId, PID)` pair from the shared identifier-token handling, which
yields `ClusterNodeId = -1` exactly on the no-colon path; with a colon the
cluster node id is whatever integer `Atoi` parses from the prefix before the
first colon — nonnegative whenever that prefix does not begin with a minus
sign, but negative prefixes such as "-2" are accepted as well. -/
theorem claim4_amended_cluster_node_id_from_id_token (fields : List Str) :
    (∀ r, lockRow fields = .ok (some r) →
      parseIdToken (fields.getD 0 []) = some (r.ClusterNodeId, r.PID)) ∧
    (∀ v r, processRow v fields = some r →
      parseIdToken (fields.getD 0 []) = some (r.ClusterNodeId, r.PID)) ∧
    (∀ r, shareRowC12 fields = some r →
      parseIdToken (fields.getD 1 []) = some (r.ClusterNodeId, r.PID)) ∧
    (∀ r, shareRowC11 fields = some r →
      parseIdToken (fields.getD 1 []) = some (r.ClusterNodeId, r.PID)) ∧
    (∀ r, shareRowCluster fields = some r →
      parseIdToken (fields.getD 0 []) = some (r.ClusterNodeId, r.PID)) ∧
    (∀ tok cni pid, parseIdToken tok = some (cni, pid) →
      (tok.contains ':' = false → cni = -1) ∧
      (tok.contains ':' = true →
        atoiGo ((splitGo (str ":") tok).getD 0 []) = some cni) ∧
      (tok.contains ':' = true →
        ((splitGo (str ":") tok).getD 0 []).head? ≠ some '-' → 0 ≤ cni)) :=
  ⟨fun r h => (lockRow_some_inv fields r h).2.1,
   fun v r h => (processRow_inv v fields r h).1,
   fun r h => (shareRowC12_inv fields r h).2.2.2.2,
   fun r h => (shareRowC11_inv fields r h).2.2.2.2,
   fun r h => (shareRowCluster_inv fields r h).2.2.2.2.2,
   fun tok cni pid h => parseIdToken_char tok cni pid h⟩

/-- Witness for the amended claim C4 at the identifier token "7:42": the
cluster node id is parsed from the prefix before the colon. -/
theorem claim4_amended_witness :
    atoiGo ((splitGo (str ":") (str "7:42")).getD 0 []) = some 7 :=
  ((claim4_amended_cluster_node_id_from_id_token []).2.2.2.2.2 (str "7:42") 7 42
    (by decide)).2.1 (by decide)

/-- Claim C7: an identifier token with a colon that splits into two
integer-parsable parts gives `(ClusterNodeId, PID)` = (part before, part
after); one without a colon that parses as an integer gives
`ClusterNodeId = -1` and that integer as the PID; and every record of the
three parsers takes its pair from exactly this token handling. -/
theorem claim7_identifier_token_values (tok a b : Str) (x y : Int) (fields : List Str) :
    (tok.contains ':' = true → splitGo (str ":") tok = [a, b] → atoiGo a = some x →
      atoiGo b = some y → parseIdToken tok = some (x, y)) ∧
    (tok.contains ':' = false → atoiGo tok = some x → parseIdToken tok = some (-1, x)) ∧
    (∀ r, lockRow fields = .ok (some r) →
      parseIdToken (fields.getD 0 []) = some (r.ClusterNodeId, r.PID)) ∧
    (∀ v r, processRow v fields = some r →
      parseIdToken (fields.getD 0 []) = some (r.ClusterNodeId, r.PID)) ∧
    (∀ r, shareRowC12 fields = some r →
      parseIdToken (fields.getD 1 []) = some (r.ClusterNodeId, r.PID)) ∧
    (∀ r, shareRowC11 fields = some r →
      parseIdToken (fields.getD 1 []) = some (r.ClusterNodeId, r.PID)) ∧
    (∀ r, shareRowCluster fields = some r →
      parseIdToken (fields.getD 0 []) = some (r.ClusterNodeId, r.PID)) := by
  refine ⟨?_, ?_, fun r h => (lockRow_some_inv fields r h).2.1,
    fun v r h => (processRow_inv v fields r h).1,
    fun r h => (shareRowC12_inv fields r h).2.2.2.2,
    fun r h => (shareRowC11_inv fields r h).2.2.2.2,
    fun r h => (shareRowCluster_inv fields r h).2.2.2.2.2⟩
  · intro hc hsplit ha hb
    simp only [parseIdToken, if_pos hc, hsplit]
    simp [ha, hb]
  · intro hc ha
    have hcn : ¬(tok.contains ':' = true) := by rw [hc]; simp
    simp only [parseIdToken, if_neg hcn]
    simp [ha]

/-- Witness for claim C7 at the token "2:1234" of the spec's example row:
cluster node id 2, PID 1234. -/
theorem claim7_witness : parseIdToken (str "2:1234") = some (2, 1234) :=
  (claim7_identifier_token_values (str "2:1234") (str "2") (str "1234") 2 1234 []).1
    (by decide) (by decide) (by decide) (by decide)

theorem shareModeNone_empty (data : Str) (h : shareModeOfData data = str "none") :
    GetShareData data = [] := by
  simp only [GetShareData, h]
  rw [if_neg (by decide), if_neg (by decide)]

/-- Claim C8: a table whose shape is not recognized — the locks header not
matching the expected 9 fields with "Pid" first and "Oplock" sixth, the
process banner two lines above the separator missing, the process header not
matching, or the shares header matching neither known variant — makes the
parser return an empty collection, whatever data rows follow the separator. -/
theorem claim8_unrecognized_shape_empty (data : Str) :
    (1 ≤ findSeperatorLineIndex (dataLines data) →
      lockHeaderOk (dataLines data) (findSeperatorLineIndex (dataLines data)).toNat =
        false → GetLockData data = .ok []) ∧
    (2 ≤ findSeperatorLineIndex (dataLines data) →
      (str "Samba version").isPrefixOf
        (sambaVersionLineOf (dataLines data)
          (findSeperatorLineIndex (dataLines data)).toNat) = false →
      GetProcessData data = []) ∧
    (2 ≤ findSeperatorLineIndex (dataLines data) →
      processHeaderOk (dataLines data) (findSeperatorLineIndex (dataLines data)).toNat =
        false → GetProcessData data = []) ∧
    (shareModeOfData data = str "none" → GetShareData data = []) := by
  refine ⟨?_, ?_, ?_, fun h => shareModeNone_empty data h⟩
  · intro hsep hhdr
    simp only [GetLockData]
    split
    · rfl
    · split
      · rfl
      · rfl
  · intro hsep hbanner
    simp only [GetProcessData]
    split
    · rfl
    · rfl
  · intro hsep hhdr
    simp only [GetProcessData]
    split
    · rfl
    · split
      · rfl
      · rfl

/-- Witness for claim C8: a table with a valid separator and a well-formed
data row, but a header whose first field is not "Pid", parses to the empty
collection. -/
theorem claim8_witness :
    GetLockData (str "Foo  Uid  DenyMode  Access  R/W  Oplock  SharePath  Name  Time\n" ++
      sepLine ++
      str "\n1234 0 DENY_NONE RDONLY NONE - /srv/share file.txt Mon Jan 2 15:04:05 2006") =
    .ok [] :=
  (claim8_unrecognized_shape_empty _).1 (by decide) (by decide)

/-- Claim C9: a process row maps the user sentinel "nobody" to UserID -1 and
the group sentinel "nogroup" to GroupID -1 without numeric conversion, while
any other non-numeric user or group field makes the row contribute no record,
and a skipped row leaves the parsing of the following rows unchanged. -/
theorem claim9_nobody_nogroup_sentinels (v : Str) (fields : List Str)
    (hlen : fields.length = 8) :
    (∀ r, processRow v fields = some r →
      (fields.getD 1 [] = str "nobody" → r.UserID = -1) ∧
      (fields.getD 2 [] = str "nogroup" → r.GroupID = -1)) ∧
    (fields.getD 1 [] ≠ str "nobody" → atoiGo (fields.getD 1 []) = none →
      processRow v fields = none) ∧
    (fields.getD 2 [] ≠ str "nogroup" → atoiGo (fields.getD 2 []) = none →
      processRow v fields = none) ∧
    (∀ rest, processRow v fields = none →
      (fields :: rest).filterMap (processRow v) = rest.filterMap (processRow v)) := by
  refine ⟨?_, ?_, ?_, ?_⟩
  · intro r h
    exact ⟨(processRow_inv v fields r h).2.2.2.2.2.2.1,
      (processRow_inv v fields r h).2.2.2.2.2.2.2⟩
  · intro hnb hnone
    simp only [processRow]
    cases hpi : parseIdToken (fields.getD 0 []) with
    | none => rfl
    | some cp =>
      obtain ⟨cni, pid⟩ := cp
      dsimp only
      rw [if_neg hnb, hnone]
  · intro hng hnone
    simp only [processRow]
    cases hpi : parseIdToken (fields.getD 0 []) with
    | none => rfl
    | some cp =>
      obtain ⟨cni, pid⟩ := cp
      dsimp only
      by_cases hnb : fields.getD 1 [] = str "nobody"
      · rw [if_pos hnb]
        dsimp only
        rw [if_neg hng, hnone]
      · rw [if_neg hnb]
        cases hu : atoiGo (fields.getD 1 []) with
        | none => rfl
        | some uid =>
          dsimp only
          rw [if_neg hng, hnone]
  · intro rest h
    simp [List.filterMap_cons, h]

/-- Witness for claim C9 at a row with both sentinels: UserID and GroupID are
both mapped to -1. -/
theorem claim9_witness :
    (⟨1234, -1, -1, -1, str "10.0.0.1 (x)", str "SMB3_11", str "-", str "-",
      str "4.13.5"⟩ : ProcessData).UserID = -1 ∧
    (⟨1234, -1, -1, -1, str "10.0.0.1 (x)", str "SMB3_11", str "-", str "-",
      str "4.13.5"⟩ : ProcessData).GroupID = -1 :=
  ⟨((claim9_nobody_nogroup_sentinels (str "4.13.5")
      [str "1234", str "nobody", str "nogroup", str "10.0.0.1", str "(x)",
       str "SMB3_11", str "-", str "-"] (by decide)).1
    ⟨1234, -1, -1, -1, str "10.0.0.1 (x)", str "SMB3_11", str "-", str "-",
      str "4.13.5"⟩ (by decide)).1 (by decide),
   ((claim9_nobody_nogroup_sentinels (str "4.13.5")
      [str "1234", str "nobody", str "nogroup", str "10.0.0.1", str "(x)",
       str "SMB3_11", str "-", str "-"] (by decide)).1
    ⟨1234, -1, -1, -1, str "10.0.0.1 (x)", str "SMB3_11", str "-", str "-",
      str "4.13.5"⟩ (by decide)).2 (by decide)⟩

/-- Claim C10: a line is recognized as the separator exactly when it begins
with a run of at least 41 dashes, whatever follows them; the first such line
is the one used; and an input none of whose lines qualifies is treated as
having no separator, so every parser returns the empty collection. -/
theorem claim10_separator_is_41_dashes (lines : List Str) (data : Str) :
    (∀ l : Str, sepDashes.isPrefixOf l = true ↔
      41 ≤ (l.takeWhile (fun c => c = '-')).length) ∧
    (∀ i : Nat, findSeperatorLineIndex lines = (i : Int) ↔
      (i < lines.length ∧ sepDashes.isPrefixOf (lines.getD i []) = true ∧
       ∀ j, j < i → sepDashes.isPrefixOf (lines.getD j []) = false)) ∧
    (findSeperatorLineIndex lines = -1 ↔
      ∀ l ∈ lines, sepDashes.isPrefixOf l = false) ∧
    (findSeperatorLineIndex (dataLines data) = -1 →
      GetLockData data = .ok [] ∧ GetShareData data = [] ∧ GetProcessData data = []) := by
  refine ⟨fun l => replicate_isPrefixOf_iff 41 l,
    fun i => findSeperatorLineIndex_coe_iff lines i,
    findSeperatorLineIndex_neg_iff lines, ?_⟩
  intro hneg
  refine ⟨?_, ?_, ?_⟩
  · simp only [GetLockData]
    split
    · rfl
    · split
      · rfl
      · rename_i h1 h2
        rw [hneg] at h2
        exact absurd (by norm_num) h2
  · apply shareModeNone_empty
    simp only [shareModeOfData]
    rw [if_pos (by rw [hneg]; norm_num)]
  · simp only [GetProcessData]
    split
    · rfl
    · rename_i h1
      rw [hneg] at h1
      exact absurd (by norm_num) h1

/-- Witness for claim C10: a locks table whose dash row has only 40 dashes has
no separator, and all three parsers return the empty collection. -/
theorem claim10_witness :
    GetLockData (lockHeaderLine ++ str "\n" ++ List.replicate 40 '-' ++
      str "\n1234 0 DENY_NONE RDONLY NONE - /srv/share file.txt Mon Jan 2 15:04:05 2006") =
      .ok [] ∧
    GetShareData (lockHeaderLine ++ str "\n" ++ List.replicate 40 '-' ++
      str "\n1234 0 DENY_NONE RDONLY NONE - /srv/share file.txt Mon Jan 2 15:04:05 2006") =
      [] ∧
    GetProcessData (lockHeaderLine ++ str "\n" ++ List.replicate 40 '-' ++
      str "\n1234 0 DENY_NONE RDONLY NONE - /srv/share file.txt Mon Jan 2 15:04:05 2006") =
      [] :=
  (claim10_separator_is_41_dashes [] _).2.2.2 (by decide)

end SmbVerify
